import Mathlib

/-!
Verification development for the obsidian-cli-tool repository.

Python strings are embedded as `List Char`; file contents, titles and paths
are such lists.  Machine floats are embedded as exact numbers: the ranking
logic is stated over an arbitrary linear order (instantiated at `ℚ` for
concrete evaluation and at `ℝ` inside the pipeline), and the cosine
similarity of sklearn is embedded over `ℝ`.  Network and library effects
(the Ollama HTTP calls, `re`/`yaml` parsing) enter as explicit inputs.
-/

/-! ## Python string primitives (`str.strip`, `in`, `str.join`) -/

/-- Whitespace characters removed by Python's `str.strip()` (the ASCII ones;
the counterexamples and theorems below only ever use these). -/
def isPyWhitespace (c : Char) : Bool :=
  c = ' ' || c = '\t' || c = '\n' || c = '\r' || c = '\x0b' || c = '\x0c'

/-- Embedding of Python `s.strip()`: remove leading and trailing whitespace. -/
def pyStrip (s : List Char) : List Char :=
  ((s.dropWhile isPyWhitespace).reverse.dropWhile isPyWhitespace).reverse

/-- Embedding of Python `hay.startswith(needle)` at the head position. -/
def pyStartsWith : List Char → List Char → Bool
  | [], _ => true
  | _ :: _, [] => false
  | a :: as, b :: bs => a == b && pyStartsWith as bs

/-- Embedding of the Python substring test `needle in hay`. -/
def pyContains (needle : List Char) : List Char → Bool
  | [] => needle.isEmpty
  | c :: rest => pyStartsWith needle (c :: rest) || pyContains needle rest

/-- Embedding of Python `"\n".join(parts)`. -/
def pyJoinNewline : List (List Char) → List Char
  | [] => []
  | [x] => x
  | x :: y :: rest => x ++ '\n' :: pyJoinNewline (y :: rest)

/-! ## The link mutator (note_linker.py, lines 127-148) -/

/-- The wiki-link token `f"[[{title}]]"` built for a target title. -/
def linkToken (t : List Char) : List Char :=
  "[[".data ++ t ++ "]]".data

/-- The queued links: for each candidate title whose token does not yet occur
in the current content, the token `[[title]]` (note_linker.py lines 135-142:
`if f"[[{target_title}]]" not in current_content: links_to_add.append(...)`). -/
def linksToAdd (content : List Char) (titles : List (List Char)) : List (List Char) :=
  (titles.filter (fun t => !pyContains (linkToken t) content)).map linkToken

/-- The fixed heading text `"\n\n### Related Notes\n"` of note_linker.py line 146. -/
def relatedNotesHeading : List Char :=
  "\n\n### Related Notes\n".data

/-- The content of the source note after one application of the link mutator
(note_linker.py lines 144-148): if no links are queued the file is not
rewritten, otherwise the new content is
`current_content.strip() + "\n\n### Related Notes\n" + "\n".join(links_to_add)`. -/
def linkStep (content : List Char) (titles : List (List Char)) : List Char :=
  let toAdd := linksToAdd content titles
  if toAdd.isEmpty then content
  else pyStrip content ++ relatedNotesHeading ++ pyJoinNewline toAdd

/-! ## The ranker (note_linker.py, lines 98-125)

`np.argsort` is embedded as a stable ascending insertion sort of the index
list (NumPy's quicksort falls back to insertion sort on arrays this small,
so ties keep index order).  The code then reverses it, drops the FIRST
index of the descending order (`[::-1][1:]`, commented as skipping the
source note itself) and scans the rest: skip `j == i`, keep scores above
the threshold, stop at three matches. -/

/-- Stable insertion of index `j` into an index list sorted ascending by
score: `j` goes after every index whose score is `≤` its own. -/
def insertByScore {α : Type} [LinearOrder α] [Inhabited α]
    (scores : List α) (j : ℕ) : List ℕ → List ℕ
  | [] => [j]
  | k :: rest =>
    if scores.getD k default ≤ scores.getD j default then
      k :: insertByScore scores j rest
    else j :: k :: rest

/-- Embedding of `np.argsort(similarity_scores)`: indices of the score list
sorted ascending by score, ties in index order. -/
def argsortAsc {α : Type} [LinearOrder α] [Inhabited α] (scores : List α) : List ℕ :=
  (List.range scores.length).foldl (fun acc j => insertByScore scores j acc) []

/-- The match-collecting loop of note_linker.py lines 109-121: walk the
remaining sorted indices, `continue` on the source index, append `(j, score)`
when the score beats the threshold, and `break` once three matches are held. -/
def rankLoop {α : Type} [LinearOrder α] [Inhabited α]
    (scores : List α) (thr : α) (i : ℕ) : List ℕ → List (ℕ × α) → List (ℕ × α)
  | [], acc => acc
  | j :: rest, acc =>
    if j = i then rankLoop scores thr i rest acc
    else
      let s := scores.getD j default
      let acc' := if thr < s then acc ++ [(j, s)] else acc
      if 3 ≤ acc'.length then acc' else rankLoop scores thr i rest acc'

/-- The candidate list (`top_matches`) the ranker produces for source note `i`
from its similarity row: `sorted_indices = np.argsort(scores)[::-1][1:]`
followed by the collecting loop. -/
def rankCandidates {α : Type} [LinearOrder α] [Inhabited α]
    (scores : List α) (thr : α) (i : ℕ) : List (ℕ × α) :=
  rankLoop scores thr i ((argsortAsc scores).reverse.drop 1) []

/-- Count of the occurrences of `needle` in `hay` (number of start positions
where `needle` begins), used to state the no-duplicate-link property. -/
def countOccurrences (needle hay : List Char) : ℕ :=
  ((List.range (hay.length + 1)).filter (fun k => pyStartsWith needle (hay.drop k))).length

/-! ## Cosine similarity (sklearn.metrics.pairwise.cosine_similarity)

note_linker.py line 92 calls sklearn's `cosine_similarity`, which
L2-normalises every row — replacing a zero norm by 1, so the division is
always by a nonzero number — and then takes pairwise dot products. -/

/-- Dot product of two rows. -/
def dotR (a b : List ℝ) : ℝ :=
  (List.zipWith (fun x y => x * y) a b).sum

/-- L2 norm of a row. -/
noncomputable def l2norm (v : List ℝ) : ℝ :=
  Real.sqrt (dotR v v)

/-- The divisor sklearn's `normalize` uses for a row: its norm, with zero
norms replaced by 1 (`norms[norms == 0.0] = 1.0`). -/
noncomputable def sklearnDivisor (v : List ℝ) : ℝ :=
  if l2norm v = 0 then 1 else l2norm v

/-- A row after sklearn's L2 normalisation. -/
noncomputable def sklearnNormalize (v : List ℝ) : List ℝ :=
  v.map (fun x => x / sklearnDivisor v)

/-- Cosine similarity of two embedding rows as sklearn computes it. -/
noncomputable def cosineSim (a b : List ℝ) : ℝ :=
  dotR (sklearnNormalize a) (sklearnNormalize b)

/-! ## The embedding call (note_linker.py, get_embedding_from_ollama) -/

/-- Outcome of the HTTP call to Ollama, as seen by
`get_embedding_from_ollama`: `requestFailure` covers every
`requests.exceptions.RequestException` (network error, the `HTTPError`
raised by `raise_for_status()` on a non-2xx response, and the JSON decode
error of a malformed body); `payload e` is a parsed JSON object whose
optional `"embedding"` key holds `e`. -/
inductive OllamaReply where
  | requestFailure
  | payload (embedding : Option (List ℝ))

/-- Embedding of `get_embedding_from_ollama`: on any request failure the
`except` branch returns `[]`; otherwise `data.get("embedding", [])`. -/
def getEmbeddingFromOllama : OllamaReply → List ℝ
  | .requestFailure => []
  | .payload none => []
  | .payload (some e) => e

/-! ## The linking pipeline (find_and_link_notes_with_embeddings) -/

/-- A scanned note: title (file name without `.md`), path, file content. -/
structure RawNote where
  title : List Char
  path : List Char
  content : List Char
deriving DecidableEq

/-- An entry of `note_embeddings`: the dict stores title, path and embedding
(the content is re-read from disk later). -/
structure EmbNote where
  title : List Char
  path : List Char
  emb : List ℝ

instance : Inhabited EmbNote := ⟨⟨[], [], []⟩⟩

/-- Builds the `note_embeddings` entry for a note. -/
def mkEmbNote (n : RawNote) (e : List ℝ) : EmbNote :=
  ⟨n.title, n.path, e⟩

/-- Step 2 of the pipeline (note_linker.py lines 69-79): call the embedding
endpoint for every note and keep only the notes whose embedding list is
truthy (`if embedding:`), i.e. nonempty.  `reply` is the Ollama response as
a function of the posted note content. -/
def embeddedNotes (notes : List RawNote) (reply : List Char → OllamaReply) : List EmbNote :=
  notes.filterMap (fun n =>
    let e := getEmbeddingFromOllama (reply n.content)
    if e.isEmpty then none else some (mkEmbNote n e))

/-- Re-reading `source_path` from the vault (note_linker.py line 131): the
content of the first scanned note with that path, `[]` if none. -/
def vaultContent (notes : List RawNote) (p : List Char) : List Char :=
  ((notes.find? (fun n => n.path == p)).map RawNote.content).getD []

/-- Row `i` of `cosine_similarity(embeddings_matrix)`. -/
noncomputable def similarityRowAt (embedded : List EmbNote) (i : ℕ) : List ℝ :=
  embedded.map (fun b => cosineSim (embedded.getD i default).emb b.emb)

/-- The write the link-phase performs for source index `i`, if any
(note_linker.py lines 123-152): rank the candidates, and when some survive,
re-read the file, queue the unseen tokens and rewrite the file when the
queue is nonempty. -/
noncomputable def linkWriteFor (notes : List RawNote) (embedded : List EmbNote)
    (i : ℕ) : Option (List Char × List Char) :=
  let source := embedded.getD i default
  let cands := rankCandidates (similarityRowAt embedded i) ((7 : ℝ)/10) i
  if cands.isEmpty then none
  else
    let content := vaultContent notes source.path
    let titles := cands.map (fun p => (embedded.getD p.1 default).title)
    let toAdd := linksToAdd content titles
    if toAdd.isEmpty then none
    else some (source.path, pyStrip content ++ relatedNotesHeading ++ pyJoinNewline toAdd)

/-- How a run of `find_and_link_notes_with_embeddings` ends. -/
inductive Outcome where
  | noNotes
  | noEmbeddings
  | completed
deriving DecidableEq

/-- The message printed when the vault holds no Markdown files. -/
def noNotesMessage : List Char :=
  "No Markdown files found. Please check the vault path.".data

/-- The message printed when no embedding call succeeded. -/
def noEmbeddingsMessage : List Char :=
  "No embeddings were generated. Exiting.".data

/-- The summary message of an early exit (the completed message carries the
linked count and is not modelled). -/
def summaryMessage : Outcome → Option (List Char)
  | .noNotes => some noNotesMessage
  | .noEmbeddings => some noEmbeddingsMessage
  | .completed => none

/-- Embedding of `find_and_link_notes_with_embeddings`: the list of file
writes `(path, new content)` the run performs, and how it ends.  Zero
scanned notes (`if not all_notes`) and zero successful embeddings
(`if not note_embeddings`) return before the linking phase. -/
noncomputable def pipeline (notes : List RawNote) (reply : List Char → OllamaReply) :
    List (List Char × List Char) × Outcome :=
  if notes.isEmpty then ([], .noNotes)
  else
    let embedded := embeddedNotes notes reply
    if embedded.isEmpty then ([], .noEmbeddings)
    else ((List.range embedded.length).filterMap (linkWriteFor notes embedded), .completed)

/-! ## The rater (note_quality.py, rate_notes)

The calls into `re` and `yaml` are library effects and enter as explicit
inputs: `rating` is the outcome of `get_note_rating_from_ollama` (`none`
embeds the falsy `{}` failure value, `some (r, fb)` the string renderings
of the two fields), `frontmatter` is the outcome of
`re.search(r"^---\s*\n(?P<yaml_content>.*?)\n---\s*\n", content, re.DOTALL)`
together with `yaml.safe_load` (the parsed key/value list and the match
end), and `dumpYaml` is `yaml.safe_dump(-, sort_keys=False)`. -/

structure RaterEnv where
  rating : List Char → Option (List Char × List Char)
  frontmatter : List Char → Option (List (List Char × List Char) × ℕ)
  dumpYaml : List (List Char × List Char) → List Char

/-- Python dict assignment `d[k] = v`: replace in place when the key exists,
append otherwise. -/
def dictSet (m : List (List Char × List Char)) (k v : List Char) :
    List (List Char × List Char) :=
  if m.any (fun kv => kv.1 == k) then
    m.map (fun kv => if kv.1 == k then (k, v) else kv)
  else m ++ [(k, v)]

/-- The new frontmatter block built when a note has none
(`f"---\nrating: {rating}\nfeedback: {feedback}\n---\n"`). -/
def newYamlBlock (r fb : List Char) : List Char :=
  "---\nrating: ".data ++ r ++ "\nfeedback: ".data ++ fb ++ "\n---\n".data

/-- The per-note step of `rate_notes` (note_quality.py lines 100-133): the
new file content when the note is rewritten, `none` when it is skipped.
A falsy rating result skips; an existing frontmatter with a `rating` key
skips; an existing frontmatter without one is re-assembled with the two new
keys; a note with no frontmatter gets a fresh block prepended. -/
def rateStep (env : RaterEnv) (content : List Char) : Option (List Char) :=
  match env.rating content with
  | none => none
  | some (r, fb) =>
    match env.frontmatter content with
    | some (yamlData, matchEnd) =>
      if yamlData.any (fun kv => kv.1 == "rating".data) then none
      else
        some ("---\n".data ++
          env.dumpYaml (dictSet (dictSet yamlData "rating".data r) "feedback".data fb) ++
          "---\n".data ++ content.drop matchEnd)
    | none => some (newYamlBlock r fb ++ content)

/-- The writes `rate_notes` performs over the scanned notes. -/
def rateNotesRun (env : RaterEnv) (notes : List RawNote) :
    List (List Char × List Char) :=
  notes.filterMap (fun n => (rateStep env n.content).map (fun c => (n.path, c)))

/-! ## The CLI entry point (main.py) -/

/-- The operating mode selected by the two flags. -/
inductive Mode where
  | linker
  | quality

/-- Embedding of the argparse mutually exclusive required group over the
flags `--note-linker` / `--note-quality`: passing both is a
"not allowed with" usage error, passing neither violates `required=True`;
argparse prints usage plus an error and exits before `main` continues. -/
def parseCli (linkerFlag qualityFlag : Bool) : Option Mode :=
  if linkerFlag && qualityFlag then none
  else if linkerFlag then some .linker
  else if qualityFlag then some .quality
  else none

/-- Result of a CLI invocation: a usage error (argparse exited, nothing
ran), or a run that performed the given file writes. -/
inductive MainResult where
  | usageError
  | ran (writes : List (List Char × List Char))

/-- Embedding of `main` past the environment checks: dispatch on the parsed
flags to the linker pipeline or the rater. -/
noncomputable def mainRun (linkerFlag qualityFlag : Bool) (notes : List RawNote)
    (reply : List Char → OllamaReply) (env : RaterEnv) : MainResult :=
  match parseCli linkerFlag qualityFlag with
  | none => .usageError
  | some .linker => .ran (pipeline notes reply).1
  | some .quality => .ran (rateNotesRun env notes)

/-! ## The embedding request target (main.py lines 32-33, note_linker.py line 17)

`main` constructs `OllamaClient(API_URL)` and passes the client OBJECT as
the second positional argument of `find_and_link_notes_with_embeddings`,
whose second parameter is the model-name string `ollama_model_name`; and
`get_embedding_from_ollama` posts to a hardcoded URL in any case. -/

/-- The value occupying the `ollama_model_name` parameter: a genuine model
name string, or the `OllamaClient` object `main` passes there. -/
inductive ModelArg where
  | name (s : List Char)
  | clientObject (apiBaseUrl : List Char)
deriving DecidableEq

/-- The request `get_embedding_from_ollama` posts: hardcoded URL, the
`ollama_model_name` argument as the `"model"` field, the text as prompt. -/
structure EmbeddingRequest where
  url : List Char
  model : ModelArg
  prompt : List Char

/-- The hardcoded URL of note_linker.py line 17. -/
def hardcodedEmbeddingsUrl : List Char :=
  "http://localhost:11434/api/embeddings".data

/-- Builds the payload of note_linker.py lines 18-23. -/
def buildEmbeddingRequest (modelArg : ModelArg) (text : List Char) : EmbeddingRequest :=
  ⟨hardcodedEmbeddingsUrl, modelArg, text⟩

/-- `OllamaClient.__init__`: stores `api_base_url.rstrip('/')`. -/
def ollamaClientInit (apiUrl : List Char) : List Char :=
  (apiUrl.reverse.dropWhile (fun c => c == '/')).reverse

/-- The second positional argument `main` passes to
`find_and_link_notes_with_embeddings`: the constructed client object. -/
def mainLinkerModelArg (apiUrl : List Char) : ModelArg :=
  .clientObject (ollamaClientInit apiUrl)

/-! ## Concrete fixtures used by the witness theorems -/

/-- A sample scanned note. -/
def sampleNote : RawNote := ⟨"t".data, "p".data, "body".data⟩

/-- A sample note whose embedding call fails. -/
def sampleFailNote : RawNote := ⟨"f".data, "pf".data, "cf".data⟩

/-- A sample note whose embedding call succeeds. -/
def sampleOkNote : RawNote := ⟨"g".data, "pg".data, "cg".data⟩

/-- A sample Ollama: succeeds exactly on the content of `sampleOkNote`. -/
def sampleReply : List Char → OllamaReply := fun c =>
  if c = "cg".data then .payload (some [(1 : ℝ)]) else .requestFailure

/-- A sample rater environment: every rating call yields rating `5` with
feedback `ok`; the content `"A"` parses as a frontmatter already holding a
`rating` key, any other content has no frontmatter. -/
def sampleRaterEnv : RaterEnv :=
  ⟨fun _ => some ("5".data, "ok".data),
   fun c => if c = "A".data then some ([("rating".data, "3".data)], 0) else none,
   fun _ => []⟩

/-- C1: for two notes with identical embeddings the similarity row of note 0
is `[1, 1]`; `argsort[::-1][1:]` drops note 1 (tied with the source note at
the maximum) instead of note 0, so the ranker returns no candidates for
note 0 even though note 1 has similarity 1 > 0.7 and the list is far from
the length-3 truncation — contradicting the claim that only the threshold
and the truncation may exclude a note `j ≠ i`.  (Note 1, by contrast, does
receive note 0 as a candidate.) -/
theorem C1_ranker_drops_tied_max :
    rankCandidates [(1 : ℚ), 1] (7/10) 0 = [] ∧
    rankCandidates [(1 : ℚ), 1] (7/10) 1 = [(0, 1)] ∧
    (7 : ℚ)/10 < 1 := by
  refine ⟨by decide, ?_, by norm_num⟩
  show rankLoop [(1 : ℚ), 1] (7/10) 1 ((argsortAsc [(1 : ℚ), 1]).reverse.drop 1) [] = [(0, 1)]
  norm_num [argsortAsc, insertByScore, rankLoop, List.range_succ]

/-! ## Bridging lemmas for the string primitives -/

/-- `pyStartsWith` decides the prefix relation. -/
theorem pyStartsWith_iff (a b : List Char) : pyStartsWith a b = true ↔ a <+: b := by
  induction a generalizing b with
  | nil => simp [pyStartsWith]
  | cons x xs ih =>
    cases b with
    | nil => simp [pyStartsWith]
    | cons y ys => simp [pyStartsWith, List.cons_prefix_cons, ih]

/-- `pyContains` decides the substring (infix) relation. -/
theorem pyContains_iff (x l : List Char) : pyContains x l = true ↔ x <:+: l := by
  induction l with
  | nil => simp [pyContains, List.isEmpty_iff]
  | cons c t ih => simp [pyContains, pyStartsWith_iff, ih, List.infix_cons_iff]

/-- An infix whose first element fails `p` survives `dropWhile p`. -/
theorem cons_infix_dropWhile {α : Type} (p : α → Bool) {c : α} {tl l : List α}
    (hc : p c = false) (h : c :: tl <:+: l) : c :: tl <:+: l.dropWhile p := by
  induction l with
  | nil => simp at h
  | cons b bs ih =>
    rw [List.dropWhile_cons]
    split
    next hb =>
      rcases List.infix_cons_iff.mp h with hpre | hinf
      · rcases List.cons_prefix_cons.mp hpre with ⟨rfl, -⟩
        rw [hb] at hc
        cases hc
      · exact ih hinf
    next hb => exact h

/-- An infix that starts and ends with non-whitespace characters survives
`pyStrip` of the surrounding string. -/
theorem infix_pyStrip {x l : List Char} {c d : Char}
    (hh : x.head? = some c) (hcw : isPyWhitespace c = false)
    (hl : x.getLast? = some d) (hdw : isPyWhitespace d = false)
    (h : x <:+: l) : x <:+: pyStrip l := by
  obtain ⟨tl, rfl⟩ : ∃ tl, x = c :: tl := by
    cases x with
    | nil => simp at hh
    | cons a as =>
      simp only [List.head?_cons, Option.some.injEq] at hh
      exact ⟨as, by rw [hh]⟩
  have h1 : c :: tl <:+: l.dropWhile isPyWhitespace := cons_infix_dropWhile _ hcw h
  have h2 : (c :: tl).reverse <:+: (l.dropWhile isPyWhitespace).reverse :=
    List.reverse_infix.mpr h1
  obtain ⟨tl2, hx2⟩ : ∃ tl2, (c :: tl).reverse = d :: tl2 := by
    have hrh : (c :: tl).reverse.head? = some d := by rw [List.head?_reverse]; exact hl
    cases hcase : (c :: tl).reverse with
    | nil => rw [hcase] at hrh; cases hrh
    | cons e es =>
      rw [hcase] at hrh
      simp only [List.head?_cons, Option.some.injEq] at hrh
      exact ⟨es, by rw [hrh]⟩
  rw [hx2] at h2
  have h3 : d :: tl2 <:+: (l.dropWhile isPyWhitespace).reverse.dropWhile isPyWhitespace :=
    cons_infix_dropWhile _ hdw h2
  have h4 := List.reverse_infix.mpr h3
  rw [← hx2, List.reverse_reverse] at h4
  exact h4

/-- The link token starts with an opening bracket. -/
theorem linkToken_head? (t : List Char) : (linkToken t).head? = some '[' := rfl

/-- The link token ends with a closing bracket. -/
theorem linkToken_getLast? (t : List Char) : (linkToken t).getLast? = some ']' := by
  rw [linkToken, List.getLast?_append]; rfl

/-- The link token determines the title. -/
theorem linkToken_inj {u t : List Char} (h : linkToken u = linkToken t) : u = t := by
  unfold linkToken at h
  rw [List.append_assoc, List.append_assoc] at h
  exact List.append_cancel_right (List.append_cancel_left h)

/-- Every element of a joined list is an infix of the join. -/
theorem mem_infix_pyJoinNewline {x : List Char} {L : List (List Char)} (h : x ∈ L) :
    x <:+: pyJoinNewline L := by
  induction L with
  | nil => cases h
  | cons y ys ih =>
    cases ys with
    | nil =>
      have hx : x = y := by simpa using h
      rw [hx]
      exact List.infix_rfl
    | cons z zs =>
      rcases List.mem_cons.mp h with rfl | hmem
      · exact (List.prefix_append x ('\n' :: pyJoinNewline (z :: zs))).isInfix
      · have h1 : x <:+: pyJoinNewline (z :: zs) := ih hmem
        exact h1.trans (((List.suffix_cons '\n' _).trans (List.suffix_append y _)).isInfix)

/-- Every title passed to the mutator has its token inside the mutator's
output: either it was already in the content (and its ends are brackets, so
`strip` keeps every occurrence) or it is one of the appended link lines. -/
theorem linkToken_infix_linkStep (content : List Char) (titles : List (List Char)) :
    ∀ t ∈ titles, pyContains (linkToken t) (linkStep content titles) = true := by
  intro t ht
  rw [pyContains_iff]
  unfold linkStep
  cases hadd : (linksToAdd content titles).isEmpty with
  | true =>
    have h0 : linksToAdd content titles = [] := List.isEmpty_iff.mp hadd
    unfold linksToAdd at h0
    rw [List.map_eq_nil_iff, List.filter_eq_nil_iff] at h0
    have h1 := h0 t ht
    have h2 : pyContains (linkToken t) content = true := by
      cases hcase : pyContains (linkToken t) content with
      | false => rw [hcase] at h1; simp at h1
      | true => rfl
    simp only [hadd, if_true]
    exact (pyContains_iff _ _).mp h2
  | false =>
    simp only [hadd, Bool.false_eq_true, if_false]
    by_cases hc : pyContains (linkToken t) content = true
    · have h1 : linkToken t <:+: pyStrip content :=
        infix_pyStrip (linkToken_head? t) rfl (linkToken_getLast? t) rfl
          ((pyContains_iff _ _).mp hc)
      exact h1.trans (((List.prefix_append _ _).trans (List.prefix_append _ _)).isInfix)
    · have hcf : pyContains (linkToken t) content = false := Bool.eq_false_iff.mpr hc
      have hmem : linkToken t ∈ linksToAdd content titles := by
        unfold linksToAdd
        exact List.mem_map_of_mem _ (List.mem_filter.mpr ⟨ht, by simp [hcf]⟩)
      have h1 : linkToken t <:+: pyJoinNewline (linksToAdd content titles) :=
        mem_infix_pyJoinNewline hmem
      exact h1.trans ((List.suffix_append _ _).isInfix)

/-- C3: the link mutator is idempotent: after one application every
candidate's token occurs in the content, so the second application queues
nothing and leaves the content unchanged. -/
theorem C3_link_mutator_idempotent (content : List Char) (titles : List (List Char)) :
    linksToAdd (linkStep content titles) titles = [] ∧
    linkStep (linkStep content titles) titles = linkStep content titles := by
  have hnil : linksToAdd (linkStep content titles) titles = [] := by
    unfold linksToAdd
    rw [List.map_eq_nil_iff, List.filter_eq_nil_iff]
    intro a ha
    simp [linkToken_infix_linkStep content titles a ha]
  refine ⟨hnil, ?_⟩
  rw [show linkStep (linkStep content titles) titles =
      (if (linksToAdd (linkStep content titles) titles).isEmpty then linkStep content titles
       else pyStrip (linkStep content titles) ++ relatedNotesHeading ++
         pyJoinNewline (linksToAdd (linkStep content titles) titles)) from rfl, hnil]
  simp

/-- `pyStrip` removes exactly a whitespace block at each end of the string. -/
theorem pyStrip_decomposition (s : List Char) :
    ∃ p t, s = p ++ pyStrip s ++ t ∧ (∀ c ∈ p, isPyWhitespace c = true) ∧
      (∀ c ∈ t, isPyWhitespace c = true) := by
  refine ⟨s.takeWhile isPyWhitespace,
    ((s.dropWhile isPyWhitespace).reverse.takeWhile isPyWhitespace).reverse, ?_, ?_, ?_⟩
  · conv_lhs => rw [← List.takeWhile_append_dropWhile (p := isPyWhitespace) (l := s)]
    rw [List.append_assoc]
    congr 1
    conv_lhs => rw [← List.reverse_reverse (s.dropWhile isPyWhitespace)]
    conv_lhs =>
      rw [← List.takeWhile_append_dropWhile (p := isPyWhitespace)
        (l := (s.dropWhile isPyWhitespace).reverse)]
    rw [List.reverse_append]
    rfl
  · intro c hc
    exact List.mem_takeWhile_imp hc
  · intro c hc
    exact List.mem_takeWhile_imp (List.mem_reverse.mp hc)

/-- C2 (counterexample): the code calls `current_content.strip()`, which also
removes LEADING whitespace.  On the content `" x"` with the new link `[[A]]`
the written text is `"x\n\n### Related Notes\n[[A]]"`, not the claimed
`" x\n\n### Related Notes\n[[A]]"` that keeps the leading space. -/
theorem C2_leading_whitespace_counterexample :
    linksToAdd " x".data ["A".data] = [linkToken "A".data] ∧
    linkStep " x".data ["A".data] = "x\n\n### Related Notes\n[[A]]".data ∧
    linkStep " x".data ["A".data] ≠ " x\n\n### Related Notes\n[[A]]".data := by
  decide

/-- C2 (amended): with a non-empty queue the written text is the current
text with its leading AND trailing whitespace removed, followed by two
newlines, the heading `### Related Notes`, a newline, and the queued link
tokens each on their own line. -/
theorem C2_mutator_output_amended (content : List Char) (titles : List (List Char))
    (h : linksToAdd content titles ≠ []) :
    (∃ p t, content = p ++ pyStrip content ++ t ∧ (∀ c ∈ p, isPyWhitespace c = true) ∧
      (∀ c ∈ t, isPyWhitespace c = true)) ∧
    linkStep content titles =
      pyStrip content ++ "\n\n".data ++ "### Related Notes".data ++ "\n".data ++
        pyJoinNewline (linksToAdd content titles) := by
  refine ⟨pyStrip_decomposition content, ?_⟩
  rw [show linkStep content titles =
      (if (linksToAdd content titles).isEmpty then content
       else pyStrip content ++ relatedNotesHeading ++
         pyJoinNewline (linksToAdd content titles)) from rfl]
  rw [if_neg (by simp [List.isEmpty_iff, h])]
  rw [show relatedNotesHeading = "\n\n".data ++ "### Related Notes".data ++ "\n".data from rfl]
  simp [List.append_assoc]

/-- C2 (witness): the amended statement evaluated on the content `" a "`
with candidate title `B`. -/
theorem C2_mutator_output_witness :
    (∃ p t, " a ".data = p ++ pyStrip " a ".data ++ t ∧
      (∀ c ∈ p, isPyWhitespace c = true) ∧ (∀ c ∈ t, isPyWhitespace c = true)) ∧
    linkStep " a ".data ["B".data] =
      pyStrip " a ".data ++ "\n\n".data ++ "### Related Notes".data ++ "\n".data ++
        pyJoinNewline (linksToAdd " a ".data ["B".data]) :=
  C2_mutator_output_amended " a ".data ["B".data] (by decide)

/-- C4 (counterexample): the token `[[x]]` already occurs in the content
`"[[x]]"`, yet after running the mutator with candidate titles `x` and
`a[[x]]b` the output contains a SECOND occurrence of `[[x]]` — inside the
appended link line `[[a[[x]]b]]` — so "no additional occurrence" fails. -/
theorem C4_occurrence_counterexample :
    pyContains (linkToken "x".data) "[[x]]".data = true ∧
    countOccurrences (linkToken "x".data) "[[x]]".data = 1 ∧
    countOccurrences (linkToken "x".data)
      (linkStep "[[x]]".data ["x".data, "a[[x]]b".data]) = 2 := by
  decide

/-- C4 (amended): a title whose token already occurs in the content is never
queued: its token is not among the appended link lines (occurrences can
still multiply inside ANOTHER queued title's token, as the counterexample
shows). -/
theorem C4_present_token_not_queued (content t : List Char) (titles : List (List Char))
    (h : pyContains (linkToken t) content = true) :
    linkToken t ∉ linksToAdd content titles := by
  intro hmem
  unfold linksToAdd at hmem
  rcases List.mem_map.mp hmem with ⟨u, hu, hequ⟩
  have hut : u = t := linkToken_inj hequ
  rw [hut] at hu
  have hpred := (List.mem_filter.mp hu).2
  rw [h] at hpred
  simp at hpred

/-- C4 (witness): the amended statement evaluated on the content `"[[x]]"`
with candidate titles `x` and `y`. -/
theorem C4_present_token_not_queued_witness :
    linkToken "x".data ∉ linksToAdd "[[x]]".data ["x".data, "y".data] :=
  C4_present_token_not_queued "[[x]]".data "x".data ["x".data, "y".data] (by decide)

/-! ## C5: zero-magnitude rows in the cosine similarity -/

/-- A row's dot product with itself is nonnegative. -/
theorem dotR_self_nonneg (v : List ℝ) : 0 ≤ dotR v v := by
  induction v with
  | nil => simp [dotR]
  | cons x t ih =>
    rw [show dotR (x :: t) (x :: t) = x * x + dotR t t from by simp [dotR]]
    exact add_nonneg (mul_self_nonneg x) ih

/-- A row whose self dot product vanishes is all zero. -/
theorem dotR_self_eq_zero {v : List ℝ} (h : dotR v v = 0) : ∀ x ∈ v, x = 0 := by
  induction v with
  | nil => simp
  | cons y t ih =>
    rw [show dotR (y :: t) (y :: t) = y * y + dotR t t from by simp [dotR]] at h
    have h1 : y * y = 0 ∧ dotR t t = 0 := by
      constructor <;> nlinarith [dotR_self_nonneg t, mul_self_nonneg y]
    intro x hx
    rcases List.mem_cons.mp hx with rfl | hxt
    · exact mul_self_eq_zero.mp h1.1
    · exact ih h1.2 x hxt

/-- The dot product with an all-zero left row is zero. -/
theorem dotR_eq_zero_left : ∀ (a b : List ℝ), (∀ x ∈ a, x = 0) → dotR a b = 0 := by
  intro a
  induction a with
  | nil => intro b _; simp [dotR]
  | cons x t ih =>
    intro b ha
    cases b with
    | nil => simp [dotR]
    | cons y u =>
      rw [show dotR (x :: t) (y :: u) = x * y + dotR t u from by simp [dotR]]
      rw [ha x (List.mem_cons_self x t), zero_mul, zero_add]
      exact ih u (fun z hz => ha z (List.mem_cons_of_mem x hz))

/-- The dot product with an all-zero right row is zero. -/
theorem dotR_eq_zero_right : ∀ (a b : List ℝ), (∀ x ∈ b, x = 0) → dotR a b = 0 := by
  intro a
  induction a with
  | nil => intro b _; simp [dotR]
  | cons x t ih =>
    intro b hb
    cases b with
    | nil => simp [dotR]
    | cons y u =>
      rw [show dotR (x :: t) (y :: u) = x * y + dotR t u from by simp [dotR]]
      rw [hb y (List.mem_cons_self y u), mul_zero, zero_add]
      exact ih u (fun z hz => hb z (List.mem_cons_of_mem y hz))

/-- A zero-magnitude row is all zero. -/
theorem l2norm_zero_all {v : List ℝ} (h : l2norm v = 0) : ∀ x ∈ v, x = 0 := by
  have h0 : dotR v v = 0 :=
    le_antisymm (Real.sqrt_eq_zero'.mp h) (dotR_self_nonneg v)
  exact dotR_self_eq_zero h0

/-- Sklearn's normalisation divisor is never zero, so no division error can
occur. -/
theorem sklearnDivisor_ne_zero (v : List ℝ) : sklearnDivisor v ≠ 0 := by
  unfold sklearnDivisor
  split
  · exact one_ne_zero
  · next h => exact h

/-- Normalising an all-zero row yields an all-zero row. -/
theorem sklearnNormalize_zero {v : List ℝ} (h : ∀ x ∈ v, x = 0) :
    ∀ y ∈ sklearnNormalize v, y = 0 := by
  intro y hy
  rcases List.mem_map.mp hy with ⟨x, hx, rfl⟩
  rw [h x hx, zero_div]

/-- C5: when either row has zero magnitude the cosine similarity is 0, and
the divisor sklearn divides by is nonzero in every case (zero norms are
replaced by 1), so the computation is total and never raises. -/
theorem C5_zero_magnitude_similarity (a b : List ℝ)
    (h : l2norm a = 0 ∨ l2norm b = 0) :
    cosineSim a b = 0 ∧ sklearnDivisor a ≠ 0 ∧ sklearnDivisor b ≠ 0 := by
  refine ⟨?_, sklearnDivisor_ne_zero a, sklearnDivisor_ne_zero b⟩
  rcases h with ha | hb
  · exact dotR_eq_zero_left _ _ (sklearnNormalize_zero (l2norm_zero_all ha))
  · exact dotR_eq_zero_right _ _ (sklearnNormalize_zero (l2norm_zero_all hb))

/-- C5 (witness): the pair `[0]`, `[1]` — the left row has zero magnitude. -/
theorem C5_zero_magnitude_similarity_witness :
    l2norm [(0 : ℝ)] = 0 ∧
    (cosineSim [(0 : ℝ)] [(1 : ℝ)] = 0 ∧ sklearnDivisor [(0 : ℝ)] ≠ 0 ∧
      sklearnDivisor [(1 : ℝ)] ≠ 0) := by
  have hz : l2norm [(0 : ℝ)] = 0 := by
    simp [l2norm, dotR]
  exact ⟨hz, C5_zero_magnitude_similarity [(0 : ℝ)] [(1 : ℝ)] (Or.inl hz)⟩

/-! ## C6/C7: the pipeline's early exits and per-note failure tolerance -/

/-- The embedded set consists exactly of the scanned notes whose embedding
call returned a nonempty list, in scan order. -/
theorem embeddedNotes_eq (notes : List RawNote) (reply : List Char → OllamaReply) :
    embeddedNotes notes reply =
      (notes.filter (fun n => !(getEmbeddingFromOllama (reply n.content)).isEmpty)).map
        (fun n => mkEmbNote n (getEmbeddingFromOllama (reply n.content))) := by
  induction notes with
  | nil => rfl
  | cons n ns ih =>
    unfold embeddedNotes
    rw [List.filterMap_cons, List.filter_cons]
    cases he : (getEmbeddingFromOllama (reply n.content)).isEmpty with
    | true =>
      simp only [he, if_true, Bool.not_true, Bool.false_eq_true, if_false]
      exact ih
    | false =>
      simp only [he, Bool.false_eq_true, if_false, Bool.not_false, if_true, List.map_cons]
      rw [← ih]
      rfl

/-- C6: when every embedding call fails (vacuously so for an empty vault)
the pipeline performs no writes and never reaches the linking phase: an
empty scan ends in `noNotes` with the "no Markdown files" summary, a
nonempty scan with no surviving embedding ends in `noEmbeddings` with the
"no embeddings" summary. -/
theorem C6_early_exit_no_writes (notes : List RawNote) (reply : List Char → OllamaReply)
    (hall : ∀ n ∈ notes, getEmbeddingFromOllama (reply n.content) = []) :
    (pipeline notes reply).1 = [] ∧
    (pipeline notes reply).2 ≠ .completed ∧
    (notes = [] → (pipeline notes reply).2 = .noNotes ∧
      summaryMessage (pipeline notes reply).2 = some noNotesMessage) ∧
    (notes ≠ [] → (pipeline notes reply).2 = .noEmbeddings ∧
      summaryMessage (pipeline notes reply).2 = some noEmbeddingsMessage) := by
  have hemb : embeddedNotes notes reply = [] := by
    unfold embeddedNotes
    rw [List.filterMap_eq_nil_iff]
    intro n hn
    simp [hall n hn]
  by_cases hn : notes = []
  · have hp : pipeline notes reply = ([], Outcome.noNotes) := by rw [hn]; rfl
    refine ⟨by rw [hp], by rw [hp]; decide, fun _ => by rw [hp]; exact ⟨rfl, rfl⟩,
      fun hne => absurd hn hne⟩
  · have hne : notes.isEmpty = false := List.isEmpty_eq_false.mpr hn
    have hp : pipeline notes reply = ([], Outcome.noEmbeddings) := by
      unfold pipeline
      rw [if_neg (by rw [hne]; simp)]
      simp [hemb]
    exact ⟨by rw [hp], by rw [hp]; decide, fun heq => absurd heq hn,
      fun _ => by rw [hp]; exact ⟨rfl, rfl⟩⟩

/-- C6 (witness): a single note whose embedding call fails. -/
theorem C6_early_exit_no_writes_witness :
    (pipeline [sampleNote] sampleReply).1 = [] ∧
    (pipeline [sampleNote] sampleReply).2 ≠ .completed ∧
    ([sampleNote] = [] → (pipeline [sampleNote] sampleReply).2 = .noNotes ∧
      summaryMessage (pipeline [sampleNote] sampleReply).2 = some noNotesMessage) ∧
    ([sampleNote] ≠ [] → (pipeline [sampleNote] sampleReply).2 = .noEmbeddings ∧
      summaryMessage (pipeline [sampleNote] sampleReply).2 = some noEmbeddingsMessage) :=
  C6_early_exit_no_writes [sampleNote] sampleReply (fun n hn => by
    have hc : sampleReply n.content = .requestFailure := by
      rw [show n = sampleNote from by simpa using hn]
      rfl
    rw [hc]
    rfl)

/-- C7: a failing embedding call returns `[]` instead of raising; a note
whose call failed is not in the embedded set (which holds exactly the notes
with a nonempty embedding), every write targets the path of an embedded
note — so a dropped note is never ranked or linked — and as long as one
embedding call succeeds the run still reaches the linking phase. -/
theorem C7_failed_embedding_dropped (notes : List RawNote) (reply : List Char → OllamaReply)
    (hsome : ∃ n ∈ notes, getEmbeddingFromOllama (reply n.content) ≠ []) :
    getEmbeddingFromOllama .requestFailure = [] ∧
    embeddedNotes notes reply =
      (notes.filter (fun n => !(getEmbeddingFromOllama (reply n.content)).isEmpty)).map
        (fun n => mkEmbNote n (getEmbeddingFromOllama (reply n.content))) ∧
    (∀ w ∈ (pipeline notes reply).1, ∃ en ∈ embeddedNotes notes reply, w.1 = en.path) ∧
    (pipeline notes reply).2 = .completed := by
  obtain ⟨n, hn, hne⟩ := hsome
  have hne1 : notes.isEmpty = false := List.isEmpty_eq_false.mpr (List.ne_nil_of_mem hn)
  have hmem : mkEmbNote n (getEmbeddingFromOllama (reply n.content)) ∈
      embeddedNotes notes reply := by
    unfold embeddedNotes
    refine List.mem_filterMap.mpr ⟨n, hn, ?_⟩
    simp [List.isEmpty_iff, hne]
  have hembne : (embeddedNotes notes reply).isEmpty = false :=
    List.isEmpty_eq_false.mpr (List.ne_nil_of_mem hmem)
  have hp : pipeline notes reply =
      ((List.range (embeddedNotes notes reply).length).filterMap
        (linkWriteFor notes (embeddedNotes notes reply)), Outcome.completed) := by
    unfold pipeline
    rw [if_neg (by rw [hne1]; simp)]
    rw [if_neg (by rw [hembne]; simp)]
  refine ⟨rfl, embeddedNotes_eq notes reply, ?_, by rw [hp]⟩
  intro w hw
  rw [hp] at hw
  rcases List.mem_filterMap.mp hw with ⟨i, hi, hlw⟩
  have hilen : i < (embeddedNotes notes reply).length := List.mem_range.mp hi
  refine ⟨(embeddedNotes notes reply).getD i default, ?_, ?_⟩
  · rw [List.getD_eq_getElem?_getD, List.getElem?_eq_getElem hilen]
    exact List.getElem_mem hilen
  · unfold linkWriteFor at hlw
    simp only [] at hlw
    split at hlw
    · cases hlw
    · split at hlw
      · cases hlw
      · exact (Option.some.inj hlw).symm ▸ rfl

/-- C7 (witness): two notes, the first failing and the second succeeding. -/
theorem C7_failed_embedding_dropped_witness :
    getEmbeddingFromOllama .requestFailure = [] ∧
    embeddedNotes [sampleFailNote, sampleOkNote] sampleReply =
      ([sampleFailNote, sampleOkNote].filter
        (fun n => !(getEmbeddingFromOllama (sampleReply n.content)).isEmpty)).map
        (fun n => mkEmbNote n (getEmbeddingFromOllama (sampleReply n.content))) ∧
    (∀ w ∈ (pipeline [sampleFailNote, sampleOkNote] sampleReply).1,
      ∃ en ∈ embeddedNotes [sampleFailNote, sampleOkNote] sampleReply, w.1 = en.path) ∧
    (pipeline [sampleFailNote, sampleOkNote] sampleReply).2 = .completed :=
  C7_failed_embedding_dropped [sampleFailNote, sampleOkNote] sampleReply
    ⟨sampleOkNote, by simp, by
      rw [show getEmbeddingFromOllama (sampleReply sampleOkNote.content) = [(1 : ℝ)] from rfl]
      simp⟩

/-! ## C8: the rater's frontmatter handling -/

/-- C8: a note whose frontmatter already holds a `rating` key is skipped
(no write, whatever the rating call returned), and a note without a
frontmatter block whose rating call succeeds is rewritten to a fresh
`---\nrating: …\nfeedback: …\n---\n` block prepended to the unchanged
original content. -/
theorem C8_rater_frontmatter (env : RaterEnv) (c₁ c₂ : List Char)
    (yamlData : List (List Char × List Char)) (matchEnd : ℕ) (r fb : List Char)
    (h₁ : env.frontmatter c₁ = some (yamlData, matchEnd))
    (h₂ : yamlData.any (fun kv => kv.1 == "rating".data) = true)
    (h₃ : env.frontmatter c₂ = none)
    (h₄ : env.rating c₂ = some (r, fb)) :
    rateStep env c₁ = none ∧ rateStep env c₂ = some (newYamlBlock r fb ++ c₂) := by
  constructor
  · unfold rateStep
    cases hr : env.rating c₁ with
    | none => rfl
    | some p =>
      obtain ⟨r1, fb1⟩ := p
      simp [h₁, h₂]
  · unfold rateStep
    simp [h₄, h₃]

/-- C8 (witness): the sample rater environment on the contents `"A"` (which
parses as a frontmatter holding a `rating` key) and `"B"` (no frontmatter,
rating `5`, feedback `ok`). -/
theorem C8_rater_frontmatter_witness :
    rateStep sampleRaterEnv "A".data = none ∧
    rateStep sampleRaterEnv "B".data = some (newYamlBlock "5".data "ok".data ++ "B".data) :=
  C8_rater_frontmatter sampleRaterEnv "A".data "B".data
    [("rating".data, "3".data)] 0 "5".data "ok".data rfl (by decide) rfl rfl

/-! ## C9: the mutually exclusive CLI flags -/

/-- C9: passing both mode flags or neither is a usage error: argparse exits
before any dispatch, so no note is processed and no file write happens (for
Booleans, "neither or both" is exactly `linkerFlag = qualityFlag`). -/
theorem C9_cli_usage_error (linkerFlag qualityFlag : Bool) (notes : List RawNote)
    (reply : List Char → OllamaReply) (env : RaterEnv)
    (h : linkerFlag = qualityFlag) :
    mainRun linkerFlag qualityFlag notes reply env = .usageError := by
  subst h
  cases linkerFlag with
  | false => rfl
  | true => rfl

/-- C9 (witness): both flags set, over a sample vault. -/
theorem C9_cli_usage_error_witness :
    mainRun true true [sampleNote] sampleReply sampleRaterEnv = .usageError :=
  C9_cli_usage_error true true [sampleNote] sampleReply sampleRaterEnv rfl

/-! ## C10: the hardcoded embedding endpoint -/

/-- C10: whatever `API_URL` the environment configures, the request built by
the linker's embedding call goes to the fixed address
`http://localhost:11434/api/embeddings`, and its `"model"` field is the
`OllamaClient` object `main` passed in the model-name position. -/
theorem C10_hardcoded_embedding_url (apiUrl text : List Char) :
    (buildEmbeddingRequest (mainLinkerModelArg apiUrl) text).url = hardcodedEmbeddingsUrl ∧
    (buildEmbeddingRequest (mainLinkerModelArg apiUrl) text).model =
      .clientObject (ollamaClientInit apiUrl) ∧
    hardcodedEmbeddingsUrl = "http://localhost:11434/api/embeddings".data :=
  ⟨rfl, rfl, rfl⟩
